import Mathlib

/-!
Verification development for the rpicamera helper executable of mediamtx
(C sources under internal/rpicamera/exe and internal/protocols/rpicamera/exe).

The C functions are shallowly embedded as Lean definitions: machine integers
become Nat with explicit reduction modulo 2^32 / 2^64 where the C arithmetic
wraps, fallible functions return Option/Except, and heap allocation of the
optional parameter sub-objects is made explicit through a small heap model.
-/

/-! ## Machine arithmetic -/

def U32 : Nat := 2 ^ 32

def U64 : Nat := 2 ^ 64

/-- Subtraction of `uint32_t` values (wrap-around), for `a b < U32`. -/
def usub32 (a b : Nat) : Nat := (a + U32 - b) % U32

/-- Subtraction of `uint64_t` values (wrap-around), for `a b < U64`. -/
def usub64 (a b : Nat) : Nat := (a + U64 - b) % U64

/-! ## Message channel writers (pipe.c)

Each framed writer first writes a 4-byte length prefix and then the payload in
one or more `write` calls.  We model a writer by the value stored in the
length prefix and the list of byte counts of the subsequent `write` calls.
-/

structure WriterOut where
  declared : Nat
  chunkSizes : List Nat
deriving DecidableEq, Repr

def WriterOut.payloadBytes (w : WriterOut) : Nat := w.chunkSizes.sum

/-- `pipe_write_ready`: `n = 1`, then one write of the 1-byte buffer `"r"`. -/
def pipe_write_ready_out : WriterOut := ⟨1, [1]⟩

/-- `pipe_write_error`: the byte `'e'` followed by the formatted text is placed
in a 256-byte buffer; `vsnprintf(&buf[1], 255, ...)` stores at most 254 text
bytes plus the terminator, so `n = strlen(buf) = 1 + min textBytes 254`.
The prefix `n` is written, then one write of `n` bytes. -/
def pipe_write_error_out (textBytes : Nat) : WriterOut :=
  let n := 1 + min textBytes 254
  ⟨n, [n]⟩

/-- `pipe_write_buf`: for `n` data bytes (`n : uint32_t`, so `n < U32`) the code
executes `n += 1 + sizeof(uint64_t)` in `uint32_t` arithmetic, writes the
4-byte prefix holding that value, then a 1-byte tag, an 8-byte timestamp,
and `n - 1 - sizeof(uint64_t)` data bytes (again `uint32_t` arithmetic). -/
def pipe_write_buf_out (n : Nat) : WriterOut :=
  let n2 := (n + 1 + 8) % U32
  ⟨n2, [1, 8, usub32 (usub32 n2 1) 8]⟩

/-! ## Colorspace negotiation rule (camera.cpp, camera_create) -/

inductive colorspace_t
  | Rec709
  | Smpte170m
deriving DecidableEq, Repr

/-- The colorspace selected in `camera_create`:
`if (params->width >= 1280 || params->height >= 720) Rec709 else Smpte170m`. -/
def camera_create_colorspace (width height : Nat) : colorspace_t :=
  if 1280 ≤ width ∨ 720 ≤ height then .Rec709 else .Smpte170m

/-- Modelled from the spec: the colorspace rule as the spec states it
(`≥1280×720 ⇒ wide-gamut colorspace, else narrow`), i.e. with a conjunction.
Used only to compare the spec text against `camera_create_colorspace`. -/
def spec_colorspace_rule (width height : Nat) : colorspace_t :=
  if 1280 ≤ width ∧ 720 ≤ height then .Rec709 else .Smpte170m

/-! ## Helper process exit codes (main.c) -/

/-- Results of the successive startup steps in `main`. -/
structure StartResults where
  params_ok : Bool
  camera_create_ok : Bool
  encoder_create_ok : Bool
  camera_start_ok : Bool
  siglistener_ok : Bool
deriving DecidableEq, Repr

/-- Exit code of `main`, following its control flow: every failing startup step
returns 5 after writing an `e` message; after a clean stop (`sigwait`) it
returns 0. -/
def main_exit_code (r : StartResults) : Nat :=
  if !r.params_ok then 5
  else if !r.camera_create_ok then 5
  else if !r.encoder_create_ok then 5
  else if !r.camera_start_ok then 5
  else if !r.siglistener_ok then 5
  else 0

/-! ## Encoder input-slot cursor (encoder.c) -/

/-- `encoder_create` sets `encp->cur_buffer = 0`. -/
def encoder_create_cur_buffer : Nat := 0

/-- `encoder_encode`: `int index = encp->cur_buffer++;
encp->cur_buffer %= encp->params->buffer_count;`
returns the slot index used for this call and the new cursor value. -/
def encoder_encode_slot (buffer_count cur : Nat) : Nat × Nat :=
  (cur, (cur + 1) % buffer_count)

/-- Cursor value after `k` calls to `encoder_encode` starting from creation. -/
def encoder_cursor_after (buffer_count : Nat) : Nat → Nat
  | 0 => encoder_create_cur_buffer
  | k + 1 => (encoder_encode_slot buffer_count (encoder_cursor_after buffer_count k)).2

/-- Slot index used by the `k`-th call (0-based). -/
def encoder_slot_of_call (buffer_count k : Nat) : Nat :=
  (encoder_encode_slot buffer_count (encoder_cursor_after buffer_count k)).1

/-! ## Encoder output timestamp normalization (encoder.c, output_thread) -/

structure ts_state where
  ts_initialized : Bool
  start_ts : Nat
deriving DecidableEq, Repr

/-- One output-ready event in `output_thread`: if the origin is not yet
latched, latch it to the current absolute timestamp; then deliver
`ts -= encp->start_ts` (`uint64_t` arithmetic) to the callback. -/
def output_thread_ts_step (st : ts_state) (ts : Nat) : ts_state × Nat :=
  let st2 := if st.ts_initialized then st else ⟨true, ts⟩
  (st2, usub64 ts st2.start_ts)

/-- The sequence of relative timestamps delivered to the access-unit callback
for a sequence of absolute output timestamps. -/
def output_thread_ts_run (st : ts_state) : List Nat → ts_state × List Nat
  | [] => (st, [])
  | t :: ts =>
    let s1 := output_thread_ts_step st t
    let s2 := output_thread_ts_run s1.1 ts
    (s2.1, s1.2 :: s2.2)

/-! ## Sensor mode descriptor (sensor_mode.c) -/

structure sensor_mode_t where
  width : Nat
  height : Nat
  bit_depth : Nat
  packed : Option Bool
deriving DecidableEq, Repr

def natOfDigits (ds : List Char) : Nat :=
  ds.foldl (fun a c => a * 10 + (c.toNat - 48)) 0

/-- One `%u` conversion of `sscanf`: skip whitespace, optionally a sign, then
at least one decimal digit; a negated input wraps modulo 2^32 (`strtoul`
behaviour). Returns the converted value and the remaining characters, or
`none` on a matching failure. -/
def scanU32 (cs : List Char) : Option (Nat × List Char) :=
  let cs1 := cs.dropWhile Char.isWhitespace
  let conv := fun (sgn : Bool) (cs2 : List Char) =>
    let ds := cs2.takeWhile Char.isDigit
    if ds.isEmpty then none
    else
      let v := natOfDigits ds % U32
      some ((if sgn then (U32 - v) % U32 else v), cs2.drop ds.length)
  match cs1 with
  | '-' :: r => conv true r
  | '+' :: r => conv false r
  | r => conv false r

/-- A literal (non-whitespace) character in a `sscanf` format string: the next
input character must match it exactly. -/
def scanLit (c : Char) : List Char → Option (List Char)
  | x :: r => if x = c then some r else none
  | [] => none

/-- Result of `sscanf(encoded, "%u:%u:%u:%c", &w, &h, &d, &p)`: the number `n`
of conversions assigned, and the converted values (`d` meaningful only when
`n ≥ 3`, `p` assigned only when `n = 4`). -/
structure sensor_mode_scan_t where
  n : Nat
  w : Nat
  h : Nat
  d : Nat
  p : Option Char
deriving DecidableEq, Repr

def sensor_mode_scan (encoded : String) : sensor_mode_scan_t :=
  match scanU32 encoded.data with
  | none => ⟨0, 0, 0, 0, none⟩
  | some (w, r1) =>
    match scanLit ':' r1 with
    | none => ⟨1, w, 0, 0, none⟩
    | some r2 =>
      match scanU32 r2 with
      | none => ⟨1, w, 0, 0, none⟩
      | some (h, r3) =>
        match scanLit ':' r3 with
        | none => ⟨2, w, h, 0, none⟩
        | some r4 =>
          match scanU32 r4 with
          | none => ⟨2, w, h, 0, none⟩
          | some (d, r5) =>
            match scanLit ':' r5 with
            | none => ⟨3, w, h, d, none⟩
            | some r6 =>
              match r6 with
              | [] => ⟨3, w, h, d, none⟩
              | c :: _ => ⟨4, w, h, d, some c⟩

/-- `sensor_mode_load`: run the `sscanf`; fewer than 2 conversions frees the
allocation and returns false. Otherwise: `packed` is true when fewer than 4
fields converted or `toupper(p) == 'P'`, false when `toupper(p) == 'U'`, and
stays uninitialized (`none`) for any other packing character; `bit_depth` is
replaced by 12 when fewer than 3 fields converted. -/
def sensor_mode_load (encoded : String) : Option sensor_mode_t :=
  let s := sensor_mode_scan encoded
  if s.n < 2 then none
  else
    some
      { width := s.w
        height := s.h
        bit_depth := if s.n < 3 then 12 else s.d
        packed :=
          if s.n < 4 then some true
          else if (s.p.getD ' ').toUpper = 'P' then some true
          else if (s.p.getD ' ').toUpper = 'U' then some false
          else none }

/-! ## Rectangle parsing (window.c, roi.c) -/

structure window_t where
  x : ℚ
  y : ℚ
  width : ℚ
  height : ℚ
deriving DecidableEq, Repr

structure roi_t where
  x : ℚ
  y : ℚ
  width : ℚ
  height : ℚ
deriving DecidableEq, Repr

/-- Split a character list at every occurrence of `delim` (the pieces keep
their order; empty pieces are kept). -/
def splitOnChar (delim : Char) : List Char → List Char → List (List Char)
  | [], acc => [acc.reverse]
  | c :: cs, acc =>
    if c = delim then acc.reverse :: splitOnChar delim cs []
    else splitOnChar delim cs (c :: acc)

/-- The token list produced by repeated `strtok(_, ",")`: the maximal nonempty
runs of characters between commas (empty fields are skipped by `strtok`). -/
def strtokFields (s : String) : List String :=
  ((splitOnChar ',' s.data []).filter (fun l => !l.isEmpty)).map (fun l => ⟨l⟩)

/-- The loop of `window_load`: for each token, store `vals[i] = atof(token)`
and return false on the first out-of-range value (`v < 0 || v > 1`);
otherwise collect the stored values. `atof` is kept abstract: the claims are
about the control flow, not about libc numeric parsing. -/
def window_load_vals (atof : String → ℚ) : List String → List ℚ → Option (List ℚ)
  | [], acc => some acc
  | tok :: toks, acc =>
    let v := atof tok
    if v < 0 ∨ 1 < v then none
    else window_load_vals atof toks (acc ++ [v])

/-- `window_load`: tokenize with `strtok(_, ",")`, run the value loop, fail
when the field count differs from 4, otherwise populate x, y, width, height
from `vals[0]..vals[3]`. -/
def window_load (atof : String → ℚ) (encoded : String) : Option window_t :=
  match window_load_vals atof (strtokFields encoded) [] with
  | none => none
  | some [a, b, c, d] => some ⟨a, b, c, d⟩
  | some _ => none

/-- The loop of `roi_load` (roi.c), identical to the one in `window_load`. -/
def roi_load_vals (atof : String → ℚ) : List String → List ℚ → Option (List ℚ)
  | [], acc => some acc
  | tok :: toks, acc =>
    let v := atof tok
    if v < 0 ∨ 1 < v then none
    else roi_load_vals atof toks (acc ++ [v])

/-- `roi_load`: same parse as `window_load`; on success allocates and
populates a `roi_t`. -/
def roi_load (atof : String → ℚ) (encoded : String) : Option roi_t :=
  match roi_load_vals atof (strtokFields encoded) [] with
  | none => none
  | some [a, b, c, d] => some ⟨a, b, c, d⟩
  | some _ => none

/-- The indices `i` at which the loop of `window_load` writes `vals[i]`,
including the write performed just before an early range-check return. The
local array `float vals[4]` has four elements, so a recorded index ≥ 4 is a
write past the end of the array. -/
def window_load_writes (atof : String → ℚ) : List String → Nat → List Nat
  | [], _ => []
  | tok :: toks, i =>
    let v := atof tok
    if v < 0 ∨ 1 < v then [i]
    else i :: window_load_writes atof toks (i + 1)

/-- Same for the loop of `roi_load` (roi.c). -/
def roi_load_writes (atof : String → ℚ) : List String → Nat → List Nat
  | [], _ => []
  | tok :: toks, i =>
    let v := atof tok
    if v < 0 ∨ 1 < v then [i]
    else i :: roi_load_writes atof toks (i + 1)

/-- Concrete decimal `atof` (optional spaces, optional sign, digits, optional
fraction), agreeing with libc `atof` on the plain decimal literals used by
the wire protocol; used to instantiate the abstract `atof` in witnesses. -/
def atofQ (s : String) : ℚ :=
  let cs := s.data.dropWhile (fun c => c = ' ')
  let sc : Bool × List Char :=
    match cs with
    | '-' :: r => (true, r)
    | '+' :: r => (false, r)
    | r => (false, r)
  let ip := sc.2.takeWhile Char.isDigit
  let r2 := sc.2.drop ip.length
  let fp :=
    match r2 with
    | '.' :: r3 => r3.takeWhile Char.isDigit
    | _ => []
  let num : Int := natOfDigits ip * 10 ^ fp.length + natOfDigits fp
  mkRat (if sc.1 then -num else num) (10 ^ fp.length)

/-- Concrete decimal `atoi`, for the same purpose. -/
def atoiZ (s : String) : Int :=
  let cs := s.data.dropWhile (fun c => c = ' ')
  match cs with
  | '-' :: r => -(natOfDigits (r.takeWhile Char.isDigit) : Int)
  | '+' :: r => (natOfDigits (r.takeWhile Char.isDigit) : Int)
  | r => (natOfDigits (r.takeWhile Char.isDigit) : Int)

/-! ## Framed reader (pipe.c, pipe_read) -/

structure pipe_stream where
  data : List Nat
  avail : List Nat
deriving DecidableEq, Repr

/-- POSIX `read(fd, buf, count)` on a pipe: blocks until at least one byte is
available, then returns up to `count` bytes — whatever is in the pipe buffer
at that moment. `avail` records how many bytes are available at each
successive call; a missing entry (or one larger than `count`) delivers the
full request. -/
def posix_read (s : pipe_stream) (count : Nat) : List Nat × pipe_stream :=
  let k := min count (s.avail.headD count)
  (s.data.take k, ⟨s.data.drop k, s.avail.tail⟩)

/-- Little-endian `uint32_t` from 4 bytes. -/
def le32 : List Nat → Nat
  | [a, b, c, d] => a + 256 * (b + 256 * (c + 256 * d))
  | _ => 0

/-- `pipe_read`: one `read` of 4 bytes into `n`, `malloc(n)`, one `read` of
`n` bytes into the buffer, and return `n`. The model returns the declared
length together with the number of payload bytes the single `read` call
actually stored; `none` models the case where even the 4 prefix bytes were
not fully delivered (the code would then use uninitialized memory for part
of `n`). -/
def pipe_read (s : pipe_stream) : Option (Nat × Nat × pipe_stream) :=
  let r1 := posix_read s 4
  if r1.1.length = 4 then
    let n := le32 r1.1
    let r2 := posix_read r1.2 n
    some (n, r2.1.length, r2.2)
  else none

/-! ## Parameter decoding (parameters.c)

`parameters_unserialize` splits the message on spaces with `strsep` (which,
unlike `strtok`, keeps empty tokens), splits each token into key and value at
colons, and dispatches on the key with a `strcmp` chain.  Heap allocation of
the optional sub-objects (`malloc`, `base64_decode`) and their `free` calls
are modelled explicitly so that the release-on-failure behaviour is visible.
-/

/-- Modelled from the spec: `base64_decode` (base64.c is not among the sources
under verification; the spec says values are Base64-encoded) is kept as an
abstract function `b64`, and the libc numeric parsers `atof` / `atoi` are
likewise abstract. All parameter-model theorems hold for every choice of
these functions. -/
structure LibC where
  atof : String → ℚ
  atoi : String → Int
  b64 : String → String

/-- Concrete instantiation used by witnesses: decimal parsers and the identity
for `base64_decode` (so sub-values can be written directly). -/
def ctxQ : LibC := ⟨atofQ, atoiZ, id⟩

/-- A heap: the id to be returned by the next `malloc`-like call and the
multiset of currently allocated (not yet freed) ids. -/
structure Heap where
  next : Nat
  live : Multiset Nat
deriving DecidableEq

def Heap.empty : Heap := ⟨0, 0⟩

def Heap.alloc (h : Heap) : Nat × Heap := (h.next, ⟨h.next + 1, h.next ::ₘ h.live⟩)

def Heap.free (h : Heap) (a : Nat) : Heap := ⟨h.next, h.live.erase a⟩

/-- `strsep(&entry, ":")` twice: the key is the text before the first colon,
the value the text between the first and second colon; `none` when the token
has no colon at all (`val` is then NULL in C, and any recognized-key branch
dereferencing it is undefined behaviour — see `token_wf`). -/
def splitKeyVal (tok : String) : String × Option String :=
  match splitOnChar ':' tok.data [] with
  | [] => ("", none)
  | [k] => (⟨k⟩, none)
  | k :: v :: _ => (⟨k⟩, some ⟨v⟩)

/-- The keys recognized by the `strcmp` chain of `parameters_unserialize`,
in source order, plus `kUnknown` for every other key. -/
inductive KeyKind
  | kCameraID
  | kWidth
  | kHeight
  | kHFlip
  | kVFlip
  | kBrightness
  | kContrast
  | kSaturation
  | kSharpness
  | kExposure
  | kAWB
  | kDenoise
  | kShutter
  | kMetering
  | kGain
  | kEV
  | kROI
  | kHDR
  | kTuningFile
  | kMode
  | kFPS
  | kIDRPeriod
  | kBitrate
  | kProfile
  | kLevel
  | kAfMode
  | kAfRange
  | kAfSpeed
  | kLensPosition
  | kAfWindow
  | kTextOverlayEnable
  | kTextOverlay
  | kUnknown
deriving DecidableEq, Repr, Fintype

def keyKind (k : String) : KeyKind :=
  if k = "CameraID" then .kCameraID
  else if k = "Width" then .kWidth
  else if k = "Height" then .kHeight
  else if k = "HFlip" then .kHFlip
  else if k = "VFlip" then .kVFlip
  else if k = "Brightness" then .kBrightness
  else if k = "Contrast" then .kContrast
  else if k = "Saturation" then .kSaturation
  else if k = "Sharpness" then .kSharpness
  else if k = "Exposure" then .kExposure
  else if k = "AWB" then .kAWB
  else if k = "Denoise" then .kDenoise
  else if k = "Shutter" then .kShutter
  else if k = "Metering" then .kMetering
  else if k = "Gain" then .kGain
  else if k = "EV" then .kEV
  else if k = "ROI" then .kROI
  else if k = "HDR" then .kHDR
  else if k = "TuningFile" then .kTuningFile
  else if k = "Mode" then .kMode
  else if k = "FPS" then .kFPS
  else if k = "IDRPeriod" then .kIDRPeriod
  else if k = "Bitrate" then .kBitrate
  else if k = "Profile" then .kProfile
  else if k = "Level" then .kLevel
  else if k = "AfMode" then .kAfMode
  else if k = "AfRange" then .kAfRange
  else if k = "AfSpeed" then .kAfSpeed
  else if k = "LensPosition" then .kLensPosition
  else if k = "AfWindow" then .kAfWindow
  else if k = "TextOverlayEnable" then .kTextOverlayEnable
  else if k = "TextOverlay" then .kTextOverlay
  else .kUnknown

def V4L2_MPEG_VIDEO_H264_PROFILE_BASELINE : Nat := 0

def V4L2_MPEG_VIDEO_H264_PROFILE_MAIN : Nat := 2

def V4L2_MPEG_VIDEO_H264_PROFILE_HIGH : Nat := 4

def V4L2_MPEG_VIDEO_H264_LEVEL_4_0 : Nat := 11

def V4L2_MPEG_VIDEO_H264_LEVEL_4_1 : Nat := 12

def V4L2_MPEG_VIDEO_H264_LEVEL_4_2 : Nat := 13

/-- The `parameters_t` record (protocols/rpicamera revision).  Heap-owned
optional sub-objects carry their allocation id; `roi`, `mode` and `af_window`
additionally record whether the pointed-to storage was populated (the C code
assigns the `malloc` result to the field before the load runs, so on a load
failure the field holds a pointer to unpopulated storage). -/
structure parameters_t where
  camera_id : Int
  width : Int
  height : Int
  h_flip : Bool
  v_flip : Bool
  brightness : ℚ
  contrast : ℚ
  saturation : ℚ
  sharpness : ℚ
  exposure : Option (Nat × String)
  awb : Option (Nat × String)
  denoise : Option (Nat × String)
  shutter : Int
  metering : Option (Nat × String)
  gain : ℚ
  ev : ℚ
  roi : Option (Nat × Option window_t)
  hdr : Bool
  tuning_file : Option (Nat × String)
  mode : Option (Nat × Option sensor_mode_t)
  fps : ℚ
  idr_period : Int
  bitrate : Int
  profile : Nat
  level : Nat
  af_mode : Option (Nat × String)
  af_range : Option (Nat × String)
  af_speed : Option (Nat × String)
  lens_position : ℚ
  af_window : Option (Nat × Option window_t)
  text_overlay_enable : Bool
  text_overlay : Option (Nat × String)
  buffer_count : Nat
  capture_buffer_count : Nat
deriving DecidableEq

/-- `memset(params, 0, sizeof(parameters_t))`. -/
def params0 : parameters_t :=
  ⟨0, 0, 0, false, false, 0, 0, 0, 0, none, none, none, 0, none, 0, 0, none,
    false, none, none, 0, 0, 0, 0, 0, none, none, none, 0, none, false, none,
    0, 0⟩

/-- One token of the dispatch chain of `parameters_unserialize`.  Returns
`.error` exactly on the `goto failed` paths (invalid ROI, sensor mode or
autofocus window); both constructors carry the parameter record and heap as
they stand when the branch ends. -/
def unserializeStep (ctx : LibC) (tok : String) (p : parameters_t) (h : Heap) :
    Except (parameters_t × Heap) (parameters_t × Heap) :=
  let kv := splitKeyVal tok
  let v := kv.2.getD ""
  match keyKind kv.1 with
  | .kCameraID => .ok ({ p with camera_id := ctx.atoi v }, h)
  | .kWidth => .ok ({ p with width := ctx.atoi v }, h)
  | .kHeight => .ok ({ p with height := ctx.atoi v }, h)
  | .kHFlip => .ok ({ p with h_flip := decide (v = "1") }, h)
  | .kVFlip => .ok ({ p with v_flip := decide (v = "1") }, h)
  | .kBrightness => .ok ({ p with brightness := ctx.atof v }, h)
  | .kContrast => .ok ({ p with contrast := ctx.atof v }, h)
  | .kSaturation => .ok ({ p with saturation := ctx.atof v }, h)
  | .kSharpness => .ok ({ p with sharpness := ctx.atof v }, h)
  | .kExposure =>
    let ah := h.alloc
    .ok ({ p with exposure := some (ah.1, ctx.b64 v) }, ah.2)
  | .kAWB =>
    let ah := h.alloc
    .ok ({ p with awb := some (ah.1, ctx.b64 v) }, ah.2)
  | .kDenoise =>
    let ah := h.alloc
    .ok ({ p with denoise := some (ah.1, ctx.b64 v) }, ah.2)
  | .kShutter => .ok ({ p with shutter := ctx.atoi v }, h)
  | .kMetering =>
    let ah := h.alloc
    .ok ({ p with metering := some (ah.1, ctx.b64 v) }, ah.2)
  | .kGain => .ok ({ p with gain := ctx.atof v }, h)
  | .kEV => .ok ({ p with ev := ctx.atof v }, h)
  | .kROI =>
    let dv := ctx.b64 v
    let dh := h.alloc
    if dv.length = 0 then .ok (p, dh.2.free dh.1)
    else
      let rh := dh.2.alloc
      match window_load ctx.atof dv with
      | some w => .ok ({ p with roi := some (rh.1, some w) }, rh.2.free dh.1)
      | none => .error ({ p with roi := some (rh.1, none) }, rh.2.free dh.1)
  | .kHDR => .ok ({ p with hdr := decide (v = "1") }, h)
  | .kTuningFile =>
    let ah := h.alloc
    .ok ({ p with tuning_file := some (ah.1, ctx.b64 v) }, ah.2)
  | .kMode =>
    let dv := ctx.b64 v
    let dh := h.alloc
    if dv.length = 0 then .ok (p, dh.2.free dh.1)
    else
      let mh := dh.2.alloc
      match sensor_mode_load dv with
      | some m => .ok ({ p with mode := some (mh.1, some m) }, mh.2.free dh.1)
      | none => .error ({ p with mode := some (mh.1, none) }, mh.2.free dh.1)
  | .kFPS => .ok ({ p with fps := ctx.atof v }, h)
  | .kIDRPeriod => .ok ({ p with idr_period := ctx.atoi v }, h)
  | .kBitrate => .ok ({ p with bitrate := ctx.atoi v }, h)
  | .kProfile =>
    let dv := ctx.b64 v
    let dh := h.alloc
    let pr :=
      if dv = "baseline" then V4L2_MPEG_VIDEO_H264_PROFILE_BASELINE
      else if dv = "main" then V4L2_MPEG_VIDEO_H264_PROFILE_MAIN
      else V4L2_MPEG_VIDEO_H264_PROFILE_HIGH
    .ok ({ p with profile := pr }, dh.2.free dh.1)
  | .kLevel =>
    let dv := ctx.b64 v
    let dh := h.alloc
    let lv :=
      if dv = "4.0" then V4L2_MPEG_VIDEO_H264_LEVEL_4_0
      else if dv = "4.1" then V4L2_MPEG_VIDEO_H264_LEVEL_4_1
      else V4L2_MPEG_VIDEO_H264_LEVEL_4_2
    .ok ({ p with level := lv }, dh.2.free dh.1)
  | .kAfMode =>
    let ah := h.alloc
    .ok ({ p with af_mode := some (ah.1, ctx.b64 v) }, ah.2)
  | .kAfRange =>
    let ah := h.alloc
    .ok ({ p with af_range := some (ah.1, ctx.b64 v) }, ah.2)
  | .kAfSpeed =>
    let ah := h.alloc
    .ok ({ p with af_speed := some (ah.1, ctx.b64 v) }, ah.2)
  | .kLensPosition => .ok ({ p with lens_position := ctx.atof v }, h)
  | .kAfWindow =>
    let dv := ctx.b64 v
    let dh := h.alloc
    if dv.length = 0 then .ok (p, dh.2.free dh.1)
    else
      let rh := dh.2.alloc
      match window_load ctx.atof dv with
      | some w => .ok ({ p with af_window := some (rh.1, some w) }, rh.2.free dh.1)
      | none => .error ({ p with af_window := some (rh.1, none) }, rh.2.free dh.1)
  | .kTextOverlayEnable => .ok ({ p with text_overlay_enable := decide (v = "1") }, h)
  | .kTextOverlay =>
    let ah := h.alloc
    .ok ({ p with text_overlay := some (ah.1, ctx.b64 v) }, ah.2)
  | .kUnknown => .ok (p, h)

def freeOpt {α : Type} (h : Heap) : Option (Nat × α) → Heap
  | none => h
  | some ia => h.free ia.1

/-- `parameters_destroy`: free every non-NULL optional sub-object, in source
order. -/
def parameters_destroy (p : parameters_t) (h : Heap) : Heap :=
  let h1 := freeOpt h p.exposure
  let h2 := freeOpt h1 p.awb
  let h3 := freeOpt h2 p.denoise
  let h4 := freeOpt h3 p.metering
  let h5 := freeOpt h4 p.roi
  let h6 := freeOpt h5 p.tuning_file
  let h7 := freeOpt h6 p.mode
  let h8 := freeOpt h7 p.af_mode
  let h9 := freeOpt h8 p.af_range
  let h10 := freeOpt h9 p.af_speed
  let h11 := freeOpt h10 p.af_window
  freeOpt h11 p.text_overlay

/-- The token loop of `parameters_unserialize`: on a branch failure, release
the sub-objects (`goto failed`) and report failure; after the last token set
the derived buffer counts (`buffer_count = 6`,
`capture_buffer_count = buffer_count * 2`) and report success. -/
def unserializeTokens (ctx : LibC) :
    List String → parameters_t → Heap → Option parameters_t × Heap
  | [], p, h => (some { p with buffer_count := 6, capture_buffer_count := 6 * 2 }, h)
  | t :: ts, p, h =>
    match unserializeStep ctx t p h with
    | .ok ph => unserializeTokens ctx ts ph.1 ph.2
    | .error ph => (none, parameters_destroy ph.1 ph.2)

/-- `strsep(&tmp, " ")` tokenization of the raw message (empty tokens kept). -/
def strsepTokens (s : String) : List String :=
  (splitOnChar ' ' s.data []).map (fun l => ⟨l⟩)

/-- `parameters_unserialize` on the token list of a message, from the zeroed
record and an empty heap. -/
def parameters_unserialize (ctx : LibC) (tokens : List String) :
    Option parameters_t × Heap :=
  unserializeTokens ctx tokens params0 Heap.empty

/-- Multiset of ids owned by an optional field. -/
def oid {α : Type} : Option (Nat × α) → Multiset Nat
  | none => 0
  | some (i, _) => {i}

/-- All ids owned by the record's optional sub-objects. -/
def ownedM (p : parameters_t) : Multiset Nat :=
  oid p.exposure + (oid p.awb + (oid p.denoise + (oid p.metering +
    (oid p.roi + (oid p.tuning_file + (oid p.mode + (oid p.af_mode +
    (oid p.af_range + (oid p.af_speed + (oid p.af_window +
    oid p.text_overlay))))))))))

/-- Whether the key kind is one whose branch stores a heap allocation in the
record. -/
def isAllocKind : KeyKind → Bool
  | .kExposure | .kAWB | .kDenoise | .kMetering | .kROI | .kTuningFile
  | .kMode | .kAfMode | .kAfRange | .kAfSpeed | .kAfWindow | .kTextOverlay => true
  | _ => false

/-- Whether the field owned by an allocating key kind is already populated. -/
def kindFieldSet (kk : KeyKind) (p : parameters_t) : Bool :=
  match kk with
  | .kExposure => p.exposure.isSome
  | .kAWB => p.awb.isSome
  | .kDenoise => p.denoise.isSome
  | .kMetering => p.metering.isSome
  | .kROI => p.roi.isSome
  | .kTuningFile => p.tuning_file.isSome
  | .kMode => p.mode.isSome
  | .kAfMode => p.af_mode.isSome
  | .kAfRange => p.af_range.isSome
  | .kAfSpeed => p.af_speed.isSome
  | .kAfWindow => p.af_window.isSome
  | .kTextOverlay => p.text_overlay.isSome
  | _ => false

/-- Number of tokens whose key dispatches to `kk`. -/
def countKind (kk : KeyKind) (ts : List String) : Nat :=
  ts.countP (fun t => decide (keyKind (splitKeyVal t).1 = kk))

/-- A token is well formed when a recognized key comes with a value; a
recognized key without any colon makes the C code pass NULL to `atoi` /
`atof` / `strcmp` / `base64_decode`, which is undefined behaviour, so such
messages are outside the model. -/
def token_wf (t : String) : Prop :=
  keyKind (splitKeyVal t).1 ≠ .kUnknown → ((splitKeyVal t).2).isSome

instance (t : String) : Decidable (token_wf t) := by
  unfold token_wf
  infer_instance

/-- The heap-invariant statement for a step result: the live allocations are
exactly the ones owned by the record's optional fields. -/
def exceptInv (r : Except (parameters_t × Heap) (parameters_t × Heap)) : Prop :=
  match r with
  | .ok ph => ph.2.live = ownedM ph.1
  | .error ph => ph.2.live = ownedM ph.1

/-- The parameter record carried by a step result. -/
def exceptParams (r : Except (parameters_t × Heap) (parameters_t × Heap)) :
    parameters_t :=
  match r with
  | .ok ph => ph.1
  | .error ph => ph.1

/-- `l2` is `l` with extra tokens carrying unrecognized keys inserted at
arbitrary positions. -/
inductive InsertUnknowns : List String → List String → Prop
  | nil : InsertUnknowns [] []
  | keep (t : String) {l l2 : List String} :
      InsertUnknowns l l2 → InsertUnknowns (t :: l) (t :: l2)
  | extra (t : String) {l l2 : List String} :
      keyKind (splitKeyVal t).1 = .kUnknown →
      InsertUnknowns l l2 → InsertUnknowns l (t :: l2)

/-! ## Theorems -/

/-- Auxiliary: once the origin is latched, the drain loop state never changes
and each timestamp is delivered relative to the latched origin. -/
theorem output_thread_ts_run_latched (s : Nat) (l : List Nat) :
    output_thread_ts_run ⟨true, s⟩ l = (⟨true, s⟩, l.map (fun x => usub64 x s)) := by
  induction l with
  | nil => rfl
  | cons t ts ih => simp [output_thread_ts_run, output_thread_ts_step, ih]

/-- C5: the encoder output-drain path delivers timestamps relative to the first
observed absolute timestamp: starting from the state set up by
`encoder_create` (`ts_initialized = false`, `start_ts` arbitrary garbage `g`),
the first access unit carries 0, every later one with absolute timestamp `x`
carries `x` minus the first timestamp, the origin is latched exactly once
(final state `⟨true, t⟩` independent of the rest), and the absolute sequence
`[1000, 1500, 2200]` yields `[0, 500, 1200]`. -/
theorem output_thread_ts_normalization (g t : Nat) (rest : List Nat)
    (h : ∀ x ∈ rest, t ≤ x ∧ x < U64) :
    output_thread_ts_run ⟨false, g⟩ (t :: rest) =
      (⟨true, t⟩, 0 :: rest.map (fun x => x - t)) ∧
    (output_thread_ts_run ⟨false, 0⟩ [1000, 1500, 2200]).2 = [0, 500, 1200] := by
  constructor
  · have h0 : usub64 t t = 0 := by unfold usub64 U64; omega
    have hmap : rest.map (fun x => usub64 x t) = rest.map (fun x => x - t) := by
      refine List.map_congr_left ?_
      intro x hx
      obtain ⟨hb1, hb2⟩ := h x hx
      simp only [usub64, U64] at hb2 ⊢
      omega
    simp [output_thread_ts_run, output_thread_ts_step, h0,
      output_thread_ts_run_latched, hmap]
  · decide

/-- Witness for `output_thread_ts_normalization` at `g = 7`, `t = 1000`,
`rest = [1500, 2200]`. -/
theorem output_thread_ts_normalization_witness :
    output_thread_ts_run ⟨false, 7⟩ [1000, 1500, 2200] =
      (⟨true, 1000⟩, 0 :: [1500, 2200].map (fun x => x - 1000)) :=
  (output_thread_ts_normalization 7 1000 [1500, 2200] (by decide)).1

/-- C10 (confirmed): `encoder_encode` keeps the input-slot cursor in bounds.
`encoder_create` sets the cursor to 0; assuming `cur < buffer_count` before a
call, the chosen slot index and the new cursor are both `< buffer_count`; for
every sequence of calls the cursor stays in bounds, and consecutive calls use
consecutive indices modulo `buffer_count`. -/
theorem encoder_encode_cursor_bounds (buffer_count cur k : Nat)
    (hc : 0 < buffer_count) (hcur : cur < buffer_count) :
    encoder_create_cur_buffer = 0 ∧
    (encoder_encode_slot buffer_count cur).1 < buffer_count ∧
    (encoder_encode_slot buffer_count cur).2 < buffer_count ∧
    encoder_cursor_after buffer_count k < buffer_count ∧
    encoder_slot_of_call buffer_count k < buffer_count ∧
    encoder_slot_of_call buffer_count (k + 1) =
      (encoder_slot_of_call buffer_count k + 1) % buffer_count := by
  have hafter : ∀ m, encoder_cursor_after buffer_count m < buffer_count := by
    intro m
    induction m with
    | zero => simpa [encoder_cursor_after, encoder_create_cur_buffer] using hc
    | succ j ih =>
      simp only [encoder_cursor_after, encoder_encode_slot]
      exact Nat.mod_lt _ hc
  refine ⟨rfl, hcur, Nat.mod_lt _ hc, hafter k, hafter k, rfl⟩

/-- Witness for `encoder_encode_cursor_bounds` at `buffer_count = 6`
(the value fixed by the parameter model), `cur = 5`, third call. -/
theorem encoder_encode_cursor_bounds_witness :
    encoder_create_cur_buffer = 0 ∧
    (encoder_encode_slot 6 5).1 < 6 ∧
    (encoder_encode_slot 6 5).2 < 6 ∧
    encoder_cursor_after 6 3 < 6 ∧
    encoder_slot_of_call 6 3 < 6 ∧
    encoder_slot_of_call 6 4 = (encoder_slot_of_call 6 3 + 1) % 6 :=
  encoder_encode_cursor_bounds 6 5 3 (by decide) (by decide)

/-- C4 counterexample: at requested size 1280×480 the claim demands the narrow
colorspace (height < 720, so not ≥1280×720), but `camera_create` selects
Rec709 because its condition is a disjunction, not a conjunction. -/
theorem camera_colorspace_claim_false :
    camera_create_colorspace 1280 480 = colorspace_t.Rec709 ∧
    spec_colorspace_rule 1280 480 = colorspace_t.Smpte170m ∧
    ¬(1280 ≤ (1280 : Nat) ∧ 720 ≤ (480 : Nat)) ∧
    camera_create_colorspace 1280 480 ≠ spec_colorspace_rule 1280 480 := by
  refine ⟨rfl, rfl, by decide, by decide⟩

/-- C4 amended: the negotiated colorspace is Rec709 exactly when the requested
width is ≥ 1280 or the requested height is ≥ 720, and SMPTE 170M otherwise. -/
theorem camera_colorspace_rule (width height : Nat) :
    (camera_create_colorspace width height = colorspace_t.Rec709 ↔
      1280 ≤ width ∨ 720 ≤ height) ∧
    (camera_create_colorspace width height = colorspace_t.Smpte170m ↔
      ¬(1280 ≤ width ∨ 720 ≤ height)) := by
  unfold camera_create_colorspace
  by_cases h : 1280 ≤ width ∨ 720 ≤ height <;> simp [h]

/-- C2 counterexample: parameter-load failure and camera-create (capture
start) failure are distinct fatal conditions, yet `main` exits with the same
code 5 for both, so the codes for distinct fatal conditions do not differ. -/
theorem main_exit_code_claim_false :
    main_exit_code ⟨false, true, true, true, true⟩ =
      main_exit_code ⟨true, false, true, true, true⟩ ∧
    (⟨false, true, true, true, true⟩ : StartResults) ≠
      ⟨true, false, true, true, true⟩ := by
  exact ⟨rfl, by decide⟩

/-- C2 amended: `main` exits with the single non-zero code 5 on every fatal
startup condition (parameter load failure, camera create/start failure,
encoder create failure, signal-listener failure) and with 0 on a clean stop. -/
theorem main_exit_code_uniform (r : StartResults)
    (h : r ≠ ⟨true, true, true, true, true⟩) :
    main_exit_code r = 5 ∧ main_exit_code r ≠ 0 ∧
    main_exit_code ⟨true, true, true, true, true⟩ = 0 := by
  rcases r with ⟨p, c, e, s, g⟩
  cases p <;> cases c <;> cases e <;> cases s <;> cases g <;> simp_all [main_exit_code]

/-- Witness for `main_exit_code_uniform` at the parameter-load-failure
outcome. -/
theorem main_exit_code_uniform_witness :
    main_exit_code ⟨false, true, true, true, true⟩ = 5 ∧
    main_exit_code ⟨false, true, true, true, true⟩ ≠ 0 ∧
    main_exit_code ⟨true, true, true, true, true⟩ = 0 :=
  main_exit_code_uniform ⟨false, true, true, true, true⟩ (by decide)

/-- C1 counterexample: called with `n = 2^32 - 1` data bytes, `pipe_write_buf`
computes the prefix `n + 9` in `uint32_t` arithmetic, which wraps to 8, while
the payload written after it is `1 + 8 + (2^32 - 1)` bytes, so the length
prefix does not equal the payload byte count. -/
theorem pipe_write_buf_wrap_claim_false :
    pipe_write_buf_out (U32 - 1) = ⟨8, [1, 8, U32 - 1]⟩ ∧
    (pipe_write_buf_out (U32 - 1)).declared ≠
      (pipe_write_buf_out (U32 - 1)).payloadBytes := by
  constructor
  · show pipe_write_buf_out (U32 - 1) = _
    unfold pipe_write_buf_out usub32 U32
    norm_num
  · intro hcontra
    have h1 : (pipe_write_buf_out (U32 - 1)).declared = 8 := by
      unfold pipe_write_buf_out usub32 U32
      norm_num
    have h2 : (pipe_write_buf_out (U32 - 1)).payloadBytes = 9 + (U32 - 1) := by
      unfold pipe_write_buf_out usub32 U32 WriterOut.payloadBytes
      norm_num
    rw [h1, h2] at hcontra
    unfold U32 at hcontra
    omega

/-- C1 amended: the length prefix written by each framed writer equals the
number of payload bytes written after it — unconditionally for tags `r`
(prefix 1, one tag byte) and `e` (prefix `strlen(buf)`, that many bytes), and
for tag `b` whenever the `uint32_t` computation `n + 9` does not wrap, in
which case the writes are 1 tag byte, 8 timestamp bytes and `n` data bytes. -/
theorem pipe_write_framing (textBytes n : Nat) (hn : n + 9 < U32) :
    pipe_write_ready_out.declared = pipe_write_ready_out.payloadBytes ∧
    (pipe_write_error_out textBytes).declared =
      (pipe_write_error_out textBytes).payloadBytes ∧
    pipe_write_buf_out n = ⟨n + 9, [1, 8, n]⟩ ∧
    (pipe_write_buf_out n).declared = (pipe_write_buf_out n).payloadBytes := by
  have hU : U32 = 2 ^ 32 := rfl
  have h1 : (n + 1 + 8) % U32 = n + 9 := by rw [hU] at hn ⊢; omega
  have h2 : usub32 (usub32 (n + 9) 1) 8 = n := by unfold usub32; rw [hU] at hn ⊢; omega
  have h3 : pipe_write_buf_out n = ⟨n + 9, [1, 8, n]⟩ := by
    simp only [pipe_write_buf_out]
    rw [h1, h2]
  refine ⟨rfl, ?_, h3, ?_⟩
  · simp [pipe_write_error_out, WriterOut.payloadBytes]
  · rw [h3]
    simp [WriterOut.payloadBytes]
    omega

/-- Witness for `pipe_write_framing` at `textBytes = 11`, `n = 5`. -/
theorem pipe_write_framing_witness :
    pipe_write_ready_out.declared = pipe_write_ready_out.payloadBytes ∧
    (pipe_write_error_out 11).declared = (pipe_write_error_out 11).payloadBytes ∧
    pipe_write_buf_out 5 = ⟨14, [1, 8, 5]⟩ ∧
    (pipe_write_buf_out 5).declared = (pipe_write_buf_out 5).payloadBytes :=
  pipe_write_framing 11 5 (by decide)

/-- C6 (confirmed): `sensor_mode_load` follows the `width:height:bitdepth:
packing-char` format: fewer than 2 converted fields is an error; with exactly
2 the bit depth defaults to 12 and packing to packed; with exactly 3 packing
defaults to packed; with 4 a packing char P or p means packed and U or u
means unpacked; and on any success the width and height are the first two
parsed fields. -/
theorem sensor_mode_load_cases (encoded : String) :
    (let s := sensor_mode_scan encoded
    ((s.n < 2 → sensor_mode_load encoded = none) ∧
    (s.n = 2 → sensor_mode_load encoded = some ⟨s.w, s.h, 12, some true⟩) ∧
    (s.n = 3 → sensor_mode_load encoded = some ⟨s.w, s.h, s.d, some true⟩) ∧
    (∀ c, s.n = 4 → s.p = some c →
      ((c = 'P' ∨ c = 'p' →
        sensor_mode_load encoded = some ⟨s.w, s.h, s.d, some true⟩) ∧
       (c = 'U' ∨ c = 'u' →
        sensor_mode_load encoded = some ⟨s.w, s.h, s.d, some false⟩))) ∧
    (∀ m, sensor_mode_load encoded = some m → m.width = s.w ∧ m.height = s.h))) := by
  intro s
  unfold sensor_mode_load
  refine ⟨?_, ?_, ?_, ?_, ?_⟩
  · intro hn
    simp [hn]
  · intro hn
    simp [show sensor_mode_scan encoded = s from rfl, hn]
  · intro hn
    simp [show sensor_mode_scan encoded = s from rfl, hn]
  · intro c hn hp
    simp only [show sensor_mode_scan encoded = s from rfl, hn, hp]
    constructor
    · rintro (rfl | rfl) <;> simp
    · rintro (rfl | rfl) <;> simp
  · intro m hm
    by_cases hn : s.n < 2
    · simp [show sensor_mode_scan encoded = s from rfl, hn] at hm
    · simp only [show sensor_mode_scan encoded = s from rfl, hn, if_false,
        Option.some.injEq] at hm
      subst hm
      exact ⟨rfl, rfl⟩

/-- Witness for `sensor_mode_load_cases`: the hypotheses are realized at the
inputs `"1920:1080"` (2 fields) and `"64:48:10:u"` (4 fields, unpacked). -/
theorem sensor_mode_load_cases_witness :
    (sensor_mode_scan "1920:1080").n = 2 ∧
    sensor_mode_load "1920:1080" =
      some ⟨(sensor_mode_scan "1920:1080").w, (sensor_mode_scan "1920:1080").h,
        12, some true⟩ ∧
    sensor_mode_load "64:48:10:u" =
      some ⟨(sensor_mode_scan "64:48:10:u").w, (sensor_mode_scan "64:48:10:u").h,
        (sensor_mode_scan "64:48:10:u").d, some false⟩ :=
  ⟨by decide, (sensor_mode_load_cases "1920:1080").2.1 (by decide),
    ((sensor_mode_load_cases "64:48:10:u").2.2.2.1 'u' (by decide) (by decide)).2
      (Or.inr rfl)⟩

/-- C9: with the five in-range comma-separated fields `"0,0,0,0,0"`, the loops
of `window_load` and `roi_load` write `vals[0]` through `vals[4]` — index 4 is
past the end of the 4-element local array, and the write happens before the
`i != 4` field-count check can reject the input (which it then does: the load
itself returns false). -/
theorem window_roi_load_oob_write :
    window_load_writes atofQ (strtokFields "0,0,0,0,0") 0 = [0, 1, 2, 3, 4] ∧
    4 ∈ window_load_writes atofQ (strtokFields "0,0,0,0,0") 0 ∧
    roi_load_writes atofQ (strtokFields "0,0,0,0,0") 0 = [0, 1, 2, 3, 4] ∧
    window_load atofQ "0,0,0,0,0" = none ∧
    roi_load atofQ "0,0,0,0,0" = none := by
  refine ⟨by decide, by decide, by decide, by decide, by decide⟩

/-- C8: `pipe_read` performs a single `read` for the payload and does not loop,
so when the kernel delivers the 4 prefix bytes and then only 1 of the 2
declared payload bytes (availability schedule `[4, 1]`), `pipe_read` returns
declared length 2 having stored only 1 payload byte — a partially delivered
message. With the whole frame available (empty schedule) it returns 2 bytes. -/
theorem pipe_read_partial_delivery :
    pipe_read ⟨[2, 0, 0, 0, 10, 20], [4, 1]⟩ = some (2, 1, ⟨[20], []⟩) ∧
    (1 : Nat) ≠ 2 ∧
    pipe_read ⟨[2, 0, 0, 0, 10, 20], []⟩ = some (2, 2, ⟨[], []⟩) := by
  refine ⟨by decide, by decide, by decide⟩

/-- A token with an unrecognized key leaves the record and heap untouched
(the `strcmp` chain falls through without reading the value). -/
theorem unserializeStep_unknown (ctx : LibC) (t : String) (p : parameters_t)
    (h : Heap) (hu : keyKind (splitKeyVal t).1 = .kUnknown) :
    unserializeStep ctx t p h = .ok (p, h) := by
  simp [unserializeStep, hu]

/-- Inserting unrecognized-key tokens does not change the decode, from any
intermediate state. -/
theorem unserializeTokens_insert_unknowns (ctx : LibC) {l l2 : List String}
    (hI : InsertUnknowns l l2) :
    ∀ p h, unserializeTokens ctx l2 p h = unserializeTokens ctx l p h := by
  induction hI with
  | nil => intro p h; rfl
  | keep t hI ih =>
    intro p h
    cases hs : unserializeStep ctx t p h with
    | ok ph => simp only [unserializeTokens, hs]; exact ih ph.1 ph.2
    | error ph => simp only [unserializeTokens, hs]
  | extra t hu hI ih =>
    intro p h
    simp only [unserializeTokens, unserializeStep_unknown ctx t p h hu]
    exact ih p h

/-- C7 (confirmed): decoding is insensitive to unknown keys: for a message
(token list) `l` made of well-formed tokens, inserting extra tokens with
unrecognized keys at any positions (`InsertUnknowns l l2`) yields a message
`l2` whose decode is identical — in particular, when `l` decodes successfully
to a parameter set, `l2` decodes successfully to the same parameter set,
equal in every field (and with the same heap). -/
theorem parameters_unserialize_unknown_keys (ctx : LibC) (l l2 : List String)
    (hI : InsertUnknowns l l2) (_hwf : ∀ u ∈ l, token_wf u) :
    parameters_unserialize ctx l2 = parameters_unserialize ctx l ∧
    (∀ p hp, parameters_unserialize ctx l = (some p, hp) →
      parameters_unserialize ctx l2 = (some p, hp)) := by
  have he := unserializeTokens_insert_unknowns ctx hI params0 Heap.empty
  refine ⟨he, fun p hp hl => ?_⟩
  rw [parameters_unserialize] at hl ⊢
  rw [he, hl]

/-- Witness for `parameters_unserialize_unknown_keys`: inserting the
unrecognized tokens `"Foo:1"` and `"Junk"` around `"Width:100"`. -/
theorem parameters_unserialize_unknown_keys_witness :
    parameters_unserialize ctxQ ["Foo:1", "Width:100", "Junk"] =
      parameters_unserialize ctxQ ["Width:100"] :=
  (parameters_unserialize_unknown_keys ctxQ ["Width:100"]
    ["Foo:1", "Width:100", "Junk"]
    (.extra "Foo:1" (by decide)
      (.keep "Width:100" (.extra "Junk" (by decide) .nil)))
    (by decide)).1

theorem isSome_false_eq_none {α : Type} {o : Option α} (h : o.isSome = false) :
    o = none := by
  cases o <;> simp_all

theorem freeOpt_live {α : Type} (h : Heap) (f : Option (Nat × α)) :
    (freeOpt h f).live = h.live - oid f := by
  cases f with
  | none => simp [freeOpt, oid]
  | some ia => simp [freeOpt, oid, Heap.free, Multiset.sub_singleton]

/-- `parameters_destroy` frees exactly the owned ids: starting from a heap
whose live set is the owned set, it leaves nothing allocated. -/
theorem parameters_destroy_live (p : parameters_t) (h : Heap)
    (hl : h.live = ownedM p) : (parameters_destroy p h).live = 0 := by
  simp only [parameters_destroy]
  rw [freeOpt_live, freeOpt_live, freeOpt_live, freeOpt_live, freeOpt_live,
    freeOpt_live, freeOpt_live, freeOpt_live, freeOpt_live, freeOpt_live,
    freeOpt_live, freeOpt_live, hl]
  rw [tsub_tsub, tsub_tsub, tsub_tsub, tsub_tsub, tsub_tsub, tsub_tsub,
    tsub_tsub, tsub_tsub, tsub_tsub, tsub_tsub, tsub_tsub]
  exact tsub_self _

theorem erase_cons_cons {a b : Nat} (s : Multiset Nat) (hab : a ≠ b) :
    (a ::ₘ b ::ₘ s).erase b = a ::ₘ s := by
  rw [Multiset.erase_cons_tail _ hab, Multiset.erase_cons_head]

theorem countKind_cons (kk : KeyKind) (t : String) (ts : List String) :
    countKind kk (t :: ts) =
      countKind kk ts + (if keyKind (splitKeyVal t).1 = kk then 1 else 0) := by
  simp [countKind, List.countP_cons]

theorem kindFieldSet_of_not_alloc (kk : KeyKind) (hna : isAllocKind kk = false)
    (p : parameters_t) : kindFieldSet kk p = false := by
  cases kk <;> simp_all [isAllocKind, kindFieldSet]


/-- One dispatch step preserves the heap invariant (live = owned), provided
the owning field of the token's key is not already populated — i.e. no
earlier token with the same allocating key has been processed. -/
theorem unserializeStep_live (ctx : LibC) (t : String) (p : parameters_t)
    (h : Heap) (hl : h.live = ownedM p)
    (hclear : kindFieldSet (keyKind (splitKeyVal t).1) p = false) :
    exceptInv (unserializeStep ctx t p h) := by
  cases hk : keyKind (splitKeyVal t).1 <;> rw [hk] at hclear
  case kCameraID => simp only [unserializeStep, hk, exceptInv]; exact hl
  case kWidth => simp only [unserializeStep, hk, exceptInv]; exact hl
  case kHeight => simp only [unserializeStep, hk, exceptInv]; exact hl
  case kHFlip => simp only [unserializeStep, hk, exceptInv]; exact hl
  case kVFlip => simp only [unserializeStep, hk, exceptInv]; exact hl
  case kBrightness => simp only [unserializeStep, hk, exceptInv]; exact hl
  case kContrast => simp only [unserializeStep, hk, exceptInv]; exact hl
  case kSaturation => simp only [unserializeStep, hk, exceptInv]; exact hl
  case kSharpness => simp only [unserializeStep, hk, exceptInv]; exact hl
  case kShutter => simp only [unserializeStep, hk, exceptInv]; exact hl
  case kGain => simp only [unserializeStep, hk, exceptInv]; exact hl
  case kEV => simp only [unserializeStep, hk, exceptInv]; exact hl
  case kFPS => simp only [unserializeStep, hk, exceptInv]; exact hl
  case kIDRPeriod => simp only [unserializeStep, hk, exceptInv]; exact hl
  case kBitrate => simp only [unserializeStep, hk, exceptInv]; exact hl
  case kLensPosition => simp only [unserializeStep, hk, exceptInv]; exact hl
  case kTextOverlayEnable => simp only [unserializeStep, hk, exceptInv]; exact hl
  case kHDR => simp only [unserializeStep, hk, exceptInv]; exact hl
  case kUnknown => simp only [unserializeStep, hk, exceptInv]; exact hl
  case kProfile =>
    simp only [unserializeStep, hk, exceptInv, Heap.alloc, Heap.free,
      Multiset.erase_cons_head]
    exact hl
  case kLevel =>
    simp only [unserializeStep, hk, exceptInv, Heap.alloc, Heap.free,
      Multiset.erase_cons_head]
    exact hl
  case kExposure =>
    simp only [kindFieldSet] at hclear
    simp only [unserializeStep, hk, exceptInv, Heap.alloc]
    rw [hl, ← Multiset.singleton_add]
    simp only [ownedM, isSome_false_eq_none hclear, oid, zero_add, add_zero]
    try abel
  case kAWB =>
    simp only [kindFieldSet] at hclear
    simp only [unserializeStep, hk, exceptInv, Heap.alloc]
    rw [hl, ← Multiset.singleton_add]
    simp only [ownedM, isSome_false_eq_none hclear, oid, zero_add, add_zero]
    try abel
  case kDenoise =>
    simp only [kindFieldSet] at hclear
    simp only [unserializeStep, hk, exceptInv, Heap.alloc]
    rw [hl, ← Multiset.singleton_add]
    simp only [ownedM, isSome_false_eq_none hclear, oid, zero_add, add_zero]
    try abel
  case kMetering =>
    simp only [kindFieldSet] at hclear
    simp only [unserializeStep, hk, exceptInv, Heap.alloc]
    rw [hl, ← Multiset.singleton_add]
    simp only [ownedM, isSome_false_eq_none hclear, oid, zero_add, add_zero]
    try abel
  case kTuningFile =>
    simp only [kindFieldSet] at hclear
    simp only [unserializeStep, hk, exceptInv, Heap.alloc]
    rw [hl, ← Multiset.singleton_add]
    simp only [ownedM, isSome_false_eq_none hclear, oid, zero_add, add_zero]
    try abel
  case kAfMode =>
    simp only [kindFieldSet] at hclear
    simp only [unserializeStep, hk, exceptInv, Heap.alloc]
    rw [hl, ← Multiset.singleton_add]
    simp only [ownedM, isSome_false_eq_none hclear, oid, zero_add, add_zero]
    try abel
  case kAfRange =>
    simp only [kindFieldSet] at hclear
    simp only [unserializeStep, hk, exceptInv, Heap.alloc]
    rw [hl, ← Multiset.singleton_add]
    simp only [ownedM, isSome_false_eq_none hclear, oid, zero_add, add_zero]
    try abel
  case kAfSpeed =>
    simp only [kindFieldSet] at hclear
    simp only [unserializeStep, hk, exceptInv, Heap.alloc]
    rw [hl, ← Multiset.singleton_add]
    simp only [ownedM, isSome_false_eq_none hclear, oid, zero_add, add_zero]
    try abel
  case kTextOverlay =>
    simp only [kindFieldSet] at hclear
    simp only [unserializeStep, hk, exceptInv, Heap.alloc]
    rw [hl, ← Multiset.singleton_add]
    simp only [ownedM, isSome_false_eq_none hclear, oid, zero_add, add_zero]
    try abel
  case kROI =>
    simp only [kindFieldSet] at hclear
    simp only [unserializeStep, hk, Heap.alloc, Heap.free]
    split
    · simp only [exceptInv, Multiset.erase_cons_head]
      exact hl
    · split <;>
        (simp only [exceptInv];
         rw [erase_cons_cons _ (Nat.succ_ne_self _), hl, ← Multiset.singleton_add];
         simp only [ownedM, isSome_false_eq_none hclear, oid, zero_add, add_zero];
         try abel)
  case kMode =>
    simp only [kindFieldSet] at hclear
    simp only [unserializeStep, hk, Heap.alloc, Heap.free]
    split
    · simp only [exceptInv, Multiset.erase_cons_head]
      exact hl
    · split <;>
        (simp only [exceptInv];
         rw [erase_cons_cons _ (Nat.succ_ne_self _), hl, ← Multiset.singleton_add];
         simp only [ownedM, isSome_false_eq_none hclear, oid, zero_add, add_zero];
         try abel)
  case kAfWindow =>
    simp only [kindFieldSet] at hclear
    simp only [unserializeStep, hk, Heap.alloc, Heap.free]
    split
    · simp only [exceptInv, Multiset.erase_cons_head]
      exact hl
    · split <;>
        (simp only [exceptInv];
         rw [erase_cons_cons _ (Nat.succ_ne_self _), hl, ← Multiset.singleton_add];
         simp only [ownedM, isSome_false_eq_none hclear, oid, zero_add, add_zero];
         try abel)

/-- A dispatch step only ever populates the field owned by its own key: every
other key kind's field-populated bit is unchanged, on both the success and
the failure path. -/
theorem unserializeStep_fieldSet (ctx : LibC) (t : String) (p : parameters_t)
    (h : Heap) (kk : KeyKind) (hne : kk ≠ keyKind (splitKeyVal t).1) :
    kindFieldSet kk (exceptParams (unserializeStep ctx t p h)) =
      kindFieldSet kk p := by
  cases hk : keyKind (splitKeyVal t).1 <;> rw [hk] at hne <;>
    simp only [unserializeStep, hk] <;>
    (repeat' split) <;>
    simp only [exceptParams] <;>
    (cases kk <;> first | rfl | exact absurd rfl hne)

/-- Running the token loop from a state satisfying the heap invariant, with
every allocating key appearing at most once (counting a field populated by an
already-processed token), leaves nothing allocated when the decode fails. -/
theorem unserializeTokens_release (ctx : LibC) :
    ∀ (ts : List String) (p : parameters_t) (h : Heap),
      h.live = ownedM p →
      (∀ kk, isAllocKind kk = true →
        countKind kk ts + (if kindFieldSet kk p = true then 1 else 0) ≤ 1) →
      (unserializeTokens ctx ts p h).1 = none →
      (unserializeTokens ctx ts p h).2.live = 0 := by
  intro ts
  induction ts with
  | nil =>
    intro p h hl hcnt hnone
    simp [unserializeTokens] at hnone
  | cons t ts ih =>
    intro p h hl hcnt hnone
    have hclear : kindFieldSet (keyKind (splitKeyVal t).1) p = false := by
      by_cases ha : isAllocKind (keyKind (splitKeyVal t).1) = true
      · have hc := hcnt _ ha
        rw [countKind_cons, if_pos rfl] at hc
        by_cases hf : kindFieldSet (keyKind (splitKeyVal t).1) p = true
        · rw [if_pos hf] at hc
          omega
        · simp only [Bool.not_eq_true] at hf
          exact hf
      · have hfalse : isAllocKind (keyKind (splitKeyVal t).1) = false := by
          cases hval : isAllocKind (keyKind (splitKeyVal t).1) <;> simp_all
        exact kindFieldSet_of_not_alloc _ hfalse p
    cases hs : unserializeStep ctx t p h with
    | error ph =>
      have hinv := unserializeStep_live ctx t p h hl hclear
      rw [hs] at hinv
      simp only [exceptInv] at hinv
      simp only [unserializeTokens, hs]
      exact parameters_destroy_live ph.1 ph.2 hinv
    | ok ph =>
      have hinv := unserializeStep_live ctx t p h hl hclear
      rw [hs] at hinv
      simp only [exceptInv] at hinv
      simp only [unserializeTokens, hs] at hnone ⊢
      refine ih ph.1 ph.2 hinv ?_ hnone
      intro kk hka
      by_cases heq : kk = keyKind (splitKeyVal t).1
      · rw [heq]
        have hc := hcnt _ (heq ▸ hka)
        rw [countKind_cons, if_pos rfl] at hc
        have hts : countKind (keyKind (splitKeyVal t).1) ts = 0 := by omega
        rw [hts]
        split <;> omega
      · have hfp := unserializeStep_fieldSet ctx t p h kk heq
        rw [hs] at hfp
        simp only [exceptParams] at hfp
        rw [hfp]
        have hc := hcnt _ hka
        rw [countKind_cons, if_neg (fun hcontra => heq hcontra.symm)] at hc
        by_cases hf : kindFieldSet kk p = true
        · rw [if_pos hf] at hc ⊢
          omega
        · rw [if_neg hf] at hc ⊢
          omega

theorem window_load_vals_none (atof : String → ℚ) :
    ∀ (ts : List String) (acc : List ℚ),
      (∃ x ∈ ts, atof x < 0 ∨ 1 < atof x) →
      window_load_vals atof ts acc = none := by
  intro ts
  induction ts with
  | nil =>
    intro acc hex
    simp at hex
  | cons u us ih =>
    intro acc hex
    simp only [window_load_vals]
    by_cases hu : atof u < 0 ∨ 1 < atof u
    · rw [if_pos hu]
    · rw [if_neg hu]
      apply ih
      rcases hex with ⟨x, hx, hxr⟩
      rcases List.mem_cons.mp hx with rfl | hx2
      · exact absurd hxr hu
      · exact ⟨x, hx2, hxr⟩

theorem window_load_vals_all (atof : String → ℚ) :
    ∀ (ts : List String) (acc : List ℚ),
      (∀ x ∈ ts, ¬(atof x < 0 ∨ 1 < atof x)) →
      window_load_vals atof ts acc = some (acc ++ ts.map atof) := by
  intro ts
  induction ts with
  | nil =>
    intro acc _
    simp [window_load_vals]
  | cons u us ih =>
    intro acc hall
    simp only [window_load_vals]
    rw [if_neg (hall u (List.mem_cons_self u us))]
    rw [ih (acc ++ [atof u]) (fun x hx => hall x (List.mem_cons_of_mem u hx))]
    simp

theorem window_load_not_four (atof : String → ℚ) (enc : String) (l : List ℚ)
    (hv : window_load_vals atof (strtokFields enc) [] = some l)
    (hlen : l.length ≠ 4) : window_load atof enc = none := by
  unfold window_load
  rw [hv]
  rcases l with _ | ⟨a, l1⟩
  · rfl
  rcases l1 with _ | ⟨b, l2⟩
  · rfl
  rcases l2 with _ | ⟨c, l3⟩
  · rfl
  rcases l3 with _ | ⟨d, l4⟩
  · rfl
  rcases l4 with _ | ⟨e, l5⟩
  · exact absurd rfl hlen
  · rfl

/-- The failure law of `window_load`: any out-of-range field, or a field count
different from 4, makes the load fail. -/
theorem window_load_fail (atof : String → ℚ) (enc : String)
    (hbad : (∃ x ∈ strtokFields enc, atof x < 0 ∨ 1 < atof x) ∨
      (strtokFields enc).length ≠ 4) :
    window_load atof enc = none := by
  by_cases hex : ∃ x ∈ strtokFields enc, atof x < 0 ∨ 1 < atof x
  · unfold window_load
    rw [window_load_vals_none atof _ [] hex]
  · rcases hbad with hbad | hlen
    · exact absurd hbad hex
    · have hall : ∀ x ∈ strtokFields enc, ¬(atof x < 0 ∨ 1 < atof x) :=
        fun x hx hc => hex ⟨x, hx, hc⟩
      apply window_load_not_four atof enc ((strtokFields enc).map atof)
      · rw [window_load_vals_all atof _ [] hall]
        simp
      · simpa using hlen

/-- The success law of `window_load`: four in-range fields populate
x, y, width, height in order. -/
theorem window_load_four (atof : String → ℚ) (enc : String) (a b c d : String)
    (hf : strtokFields enc = [a, b, c, d])
    (hin : ∀ x ∈ [a, b, c, d], 0 ≤ atof x ∧ atof x ≤ 1) :
    window_load atof enc = some ⟨atof a, atof b, atof c, atof d⟩ := by
  have hall : ∀ x ∈ strtokFields enc, ¬(atof x < 0 ∨ 1 < atof x) := by
    intro x hx
    rw [hf] at hx
    have hx2 := hin x hx
    rintro (hc | hc)
    · exact absurd hc (not_lt.mpr hx2.1)
    · exact absurd hc (not_lt.mpr hx2.2)
  unfold window_load
  rw [window_load_vals_all atof _ [] hall, hf]
  simp

/-- A token whose key is ROI with a non-empty decoded sub-value that fails
`window_load` makes the dispatch step fail, from every state. -/
theorem unserializeStep_roi_error (ctx : LibC) (t : String) (v : String)
    (hkv : splitKeyVal t = ("ROI", some v))
    (hne : ¬(ctx.b64 v).length = 0)
    (hwl : window_load ctx.atof (ctx.b64 v) = none) :
    ∀ (p : parameters_t) (h : Heap) (ph : parameters_t × Heap),
      unserializeStep ctx t p h ≠ .ok ph := by
  intro p h ph
  have hk : keyKind (splitKeyVal t).1 = .kROI := by
    rw [hkv]
    show keyKind "ROI" = KeyKind.kROI
    decide
  simp only [unserializeStep, hk]
  simp [hkv, hne, hwl]

/-- A token whose key is AfWindow with a non-empty decoded sub-value that
fails `window_load` makes the dispatch step fail, from every state (the
branch is identical to the ROI one, storing into `af_window`). -/
theorem unserializeStep_afwindow_error (ctx : LibC) (t : String) (v : String)
    (hkv : splitKeyVal t = ("AfWindow", some v))
    (hne : ¬(ctx.b64 v).length = 0)
    (hwl : window_load ctx.atof (ctx.b64 v) = none) :
    ∀ (p : parameters_t) (h : Heap) (ph : parameters_t × Heap),
      unserializeStep ctx t p h ≠ .ok ph := by
  intro p h ph
  have hk : keyKind (splitKeyVal t).1 = .kAfWindow := by
    rw [hkv]
    show keyKind "AfWindow" = KeyKind.kAfWindow
    decide
  simp only [unserializeStep, hk]
  simp [hkv, hne, hwl]

/-- If some token always fails the dispatch step, the whole decode fails. -/
theorem unserializeTokens_fail_of_mem (ctx : LibC) :
    ∀ (l1 : List String) (t : String) (l2 : List String) (p : parameters_t)
      (h : Heap),
      (∀ (q : parameters_t) (hq : Heap) (ph : parameters_t × Heap),
        unserializeStep ctx t q hq ≠ .ok ph) →
      (unserializeTokens ctx (l1 ++ t :: l2) p h).1 = none := by
  intro l1
  induction l1 with
  | nil =>
    intro t l2 p h hstep
    cases hs : unserializeStep ctx t p h with
    | ok ph => exact absurd hs (hstep p h ph)
    | error ph => simp [unserializeTokens, hs]
  | cons u us ih =>
    intro t l2 p h hstep
    simp only [List.cons_append, unserializeTokens]
    cases hs : unserializeStep ctx u p h with
    | ok ph => exact ih t l2 ph.1 ph.2 hstep
    | error ph => rfl

/-- C3 (amended): for every rectangle (ROI or autofocus-window) sub-value
presented to the parameter decoder, an out-of-range fractional field or a
field count other than 4 makes the whole decode fail; four in-range fields
populate the rectangle with the values in order x, y, width, height; and on
a failing decode of a well-formed message in which each allocating key occurs
at most once, every optional sub-object allocated so far is released (nothing
stays allocated).  The at-most-once side condition is forced by the
counterexample `parameters_release_claim_false`: a repeated allocating key
overwrites the stored pointer and leaks the earlier allocation. -/
theorem parameters_roi_validation :
    (∀ (ctx : LibC) (l1 l2 : List String) (t v : String),
      (∀ u ∈ l1 ++ t :: l2, token_wf u) →
      (splitKeyVal t = ("ROI", some v) ∨ splitKeyVal t = ("AfWindow", some v)) →
      ¬(ctx.b64 v).length = 0 →
      ((∃ x ∈ strtokFields (ctx.b64 v), ctx.atof x < 0 ∨ 1 < ctx.atof x) ∨
        (strtokFields (ctx.b64 v)).length ≠ 4) →
      (parameters_unserialize ctx (l1 ++ t :: l2)).1 = none) ∧
    (∀ (atof : String → ℚ) (enc : String) (a b c d : String),
      strtokFields enc = [a, b, c, d] →
      (∀ x ∈ [a, b, c, d], 0 ≤ atof x ∧ atof x ≤ 1) →
      window_load atof enc = some ⟨atof a, atof b, atof c, atof d⟩) ∧
    (∀ (ctx : LibC) (tokens : List String),
      (∀ u ∈ tokens, token_wf u) →
      (∀ kk, isAllocKind kk = true → countKind kk tokens ≤ 1) →
      (parameters_unserialize ctx tokens).1 = none →
      (parameters_unserialize ctx tokens).2.live = 0) := by
  refine ⟨?_, window_load_four, ?_⟩
  · intro ctx l1 l2 t v _ hkv hne hbad
    rcases hkv with hkv | hkv
    · exact unserializeTokens_fail_of_mem ctx l1 t l2 params0 Heap.empty
        (unserializeStep_roi_error ctx t v hkv hne
          (window_load_fail ctx.atof (ctx.b64 v) hbad))
    · exact unserializeTokens_fail_of_mem ctx l1 t l2 params0 Heap.empty
        (unserializeStep_afwindow_error ctx t v hkv hne
          (window_load_fail ctx.atof (ctx.b64 v) hbad))
  · intro ctx tokens _ hcnt hnone
    apply unserializeTokens_release ctx tokens params0 Heap.empty rfl ?_ hnone
    intro kk hka
    have hzero : kindFieldSet kk params0 = false := by
      cases kk <;> rfl
    rw [hzero]
    simpa using hcnt kk hka

/-- C3 counterexample: the message `ROI:0,0,1,1 ROI:2` (with the identity as
`base64_decode`) fails to decode — the second ROI value is out of range — and
after `parameters_destroy` one sub-object is still allocated: the rectangle
allocated for the first ROI token, whose pointer was overwritten by the
second `malloc` before the failure. -/
theorem parameters_release_claim_false :
    (parameters_unserialize ctxQ ["ROI:0,0,1,1", "ROI:2"]).1 = none ∧
    (parameters_unserialize ctxQ ["ROI:0,0,1,1", "ROI:2"]).2.live ≠ 0 := by
  constructor
  · decide
  · decide

/-- Witness for `parameters_roi_validation`: messages with a 1-field ROI
sub-value and with an out-of-range autofocus-window sub-value both fail; a
4-field in-range sub-value populates the window; and a failing single-ROI
message releases everything. -/
theorem parameters_roi_validation_witness :
    (parameters_unserialize ctxQ ["ROI:2"]).1 = none ∧
    (parameters_unserialize ctxQ ["AfWindow:2"]).1 = none ∧
    window_load atofQ "0,0.5,1,0.25" =
      some ⟨atofQ "0", atofQ "0.5", atofQ "1", atofQ "0.25"⟩ ∧
    (parameters_unserialize ctxQ ["ROI:5"]).2.live = 0 :=
  ⟨parameters_roi_validation.1 ctxQ [] [] "ROI:2" "2" (by decide)
      (Or.inl (by decide)) (by decide) (by decide),
    parameters_roi_validation.1 ctxQ [] [] "AfWindow:2" "2" (by decide)
      (Or.inr (by decide)) (by decide) (by decide),
    parameters_roi_validation.2.1 atofQ "0,0.5,1,0.25" "0" "0.5" "1" "0.25"
      (by decide) (by decide),
    parameters_roi_validation.2.2 ctxQ ["ROI:5"] (by decide) (by decide)
      (by decide)⟩
